import Mathlib

/-!
Shallow embedding of the persistent catalog store of Materialize
(src/coord/src/catalog/storage.rs) and of the global identifier type
(src/expr/src/id.rs), together with theorems settling the frozen claims
about the natural-language specification of this code.

Conventions of the embedding:
* SQLite integer columns are `Int` values in the signed 64-bit range;
  Rust `as u64` / `as i64` casts are the explicit reinterpretation
  functions `i64AsU64` / `u64AsI64` (two's complement, modulo 2^64).
* Tables are lists of row structures; constraint checks mirror the DDL
  of migration 0 and later migrations.  SQLite enforces PRIMARY KEY and
  UNIQUE constraints always, but enforces REFERENCES (foreign keys) only
  when `PRAGMA foreign_keys = ON` has been issued, which this code never
  does; the embedding therefore performs no foreign-key checks.
* Fallible operations return `Except ErrorKind`; operations that can hit
  a Rust `panic!` / `assert!` return `Res`, whose `panicked` outcome
  carries no state because the transaction is never committed.
-/

namespace MzCatalog

/-- The identifier for a global dataflow, from src/expr/src/id.rs. -/
inductive GlobalId where
  | System (n : Nat)
  | User (n : Nat)
  | Transient (n : Nat)
  | Explain
deriving DecidableEq, Repr

/-- GlobalId::is_system from src/expr/src/id.rs. -/
def GlobalId.is_system : GlobalId → Bool
  | .System _ => true
  | _ => false

/-- One decimal digit as a character. -/
def digitChar : Nat → Char
  | 0 => '0'
  | 1 => '1'
  | 2 => '2'
  | 3 => '3'
  | 4 => '4'
  | 5 => '5'
  | 6 => '6'
  | 7 => '7'
  | 8 => '8'
  | 9 => '9'
  | _ => '*'

/-- Decimal rendering of a natural number, most significant digit first.
The fuel argument makes the recursion structural; `natToDec` supplies
enough fuel for every input. -/
def natToDecAux : Nat → Nat → List Char → List Char
  | 0, _, acc => acc
  | fuel + 1, n, acc =>
    if n < 10 then digitChar n :: acc
    else natToDecAux fuel (n / 10) (digitChar (n % 10) :: acc)

/-- Decimal rendering of a natural number, as produced by Rust's
`Display` formatting of an unsigned integer. -/
def natToDec (n : Nat) : List Char := natToDecAux (n + 1) n []

/-- Numeric value of an ASCII digit character. -/
def charDigitVal (c : Char) : Nat := c.toNat - 48

/-- Accumulating left fold over decimal digit characters; any non-digit
character aborts the parse, as in Rust's `u64::from_str`. -/
def decValAux : List Char → Nat → Option Nat
  | [], a => some a
  | c :: cs, a => if c.isDigit then decValAux cs (a * 10 + charDigitVal c) else none

/-- Strip one optional leading plus sign, which Rust's unsigned integer
parser accepts. -/
def stripPlus (s : List Char) : List Char :=
  match s with
  | [] => []
  | c :: rest => if c = '+' then rest else c :: rest

/-- Rust `u64::from_str` on a character list: an optional leading plus
sign, then at least one decimal digit, rejecting values that do not fit
in 64 bits. -/
def parseU64 (s : List Char) : Option Nat :=
  match stripPlus s with
  | [] => none
  | c :: cs =>
    match decValAux (c :: cs) 0 with
    | some v => if v < 2 ^ 64 then some v else none
    | none => none

/-- The Display implementation for GlobalId from src/expr/src/id.rs,
rendered as a character list. -/
def GlobalId.display : GlobalId → List Char
  | .System n => 's' :: natToDec n
  | .User n => 'u' :: natToDec n
  | .Transient n => 't' :: natToDec n
  | .Explain => "Explained Query".data

/-- The FromStr implementation for GlobalId from src/expr/src/id.rs:
inputs shorter than two characters are rejected, the tail is parsed as a
u64 first, and then the leading character selects the namespace. -/
def GlobalId.from_str (s : List Char) : Option GlobalId :=
  if s.length < 2 then none
  else
    match parseU64 (s.drop 1) with
    | none => none
    | some val =>
      match s.head? with
      | some 's' => some (.System val)
      | some 'u' => some (.User val)
      | some 't' => some (.Transient val)
      | _ => none

/-- GlobalId::to_string, used by error messages in the catalog storage. -/
def globalIdStr (id : GlobalId) : String := String.mk (GlobalId.display id)

theorem natToDecAux_append (fuel : Nat) :
    ∀ (n : Nat) (acc : List Char),
      natToDecAux fuel n acc = natToDecAux fuel n [] ++ acc := by
  induction fuel with
  | zero => intro n acc; simp [natToDecAux]
  | succ fuel ih =>
    intro n acc
    by_cases h : n < 10
    · simp [natToDecAux, h]
    · simp only [natToDecAux, if_neg h]
      rw [ih (n / 10) (digitChar (n % 10) :: acc),
        ih (n / 10) [digitChar (n % 10)], List.append_assoc]
      rfl

theorem natToDecAux_fuel (f₁ : Nat) :
    ∀ (f₂ n : Nat) (acc : List Char), n < f₁ → n < f₂ →
      natToDecAux f₁ n acc = natToDecAux f₂ n acc := by
  induction f₁ with
  | zero => intro f₂ n acc h₁ _; omega
  | succ f₁ ih =>
    intro f₂ n acc h₁ h₂
    match f₂, h₂ with
    | f₂ + 1, h₂ =>
      by_cases h : n < 10
      · simp [natToDecAux, h]
      · simp only [natToDecAux, if_neg h]
        have hlt : n / 10 < n := Nat.div_lt_self (by omega) (by omega)
        exact ih f₂ (n / 10) _ (by omega) (by omega)

theorem natToDec_small {n : Nat} (h : n < 10) : natToDec n = [digitChar n] := by
  simp [natToDec, natToDecAux, h]

theorem natToDec_step {n : Nat} (h : 10 ≤ n) :
    natToDec n = natToDec (n / 10) ++ [digitChar (n % 10)] := by
  have hlt : n / 10 < n := Nat.div_lt_self (by omega) (by omega)
  unfold natToDec
  rw [show natToDecAux (n + 1) n [] = natToDecAux n (n / 10) [digitChar (n % 10)] by
        simp [natToDecAux, Nat.not_lt.mpr h],
    natToDecAux_append, natToDecAux_fuel n (n / 10 + 1) (n / 10) [] (by omega) (by omega)]

theorem digitChar_isDigit {n : Nat} (h : n < 10) : (digitChar n).isDigit = true := by
  interval_cases n <;> decide

theorem charDigitVal_digitChar {n : Nat} (h : n < 10) : charDigitVal (digitChar n) = n := by
  interval_cases n <;> decide

theorem decValAux_append (xs : List Char) :
    ∀ (ys : List Char) (a : Nat),
      decValAux (xs ++ ys) a =
        match decValAux xs a with
        | some b => decValAux ys b
        | none => none := by
  induction xs with
  | nil => intro ys a; simp [decValAux]
  | cons c cs ih =>
    intro ys a
    by_cases h : c.isDigit
    · simp [decValAux, h, ih]
    · simp [decValAux, h]

theorem decValAux_natToDec (n : Nat) : decValAux (natToDec n) 0 = some n := by
  induction n using Nat.strong_induction_on with
  | _ n ih =>
    by_cases h : n < 10
    · rw [natToDec_small h]
      simp [decValAux, digitChar_isDigit h, charDigitVal_digitChar h]
    · have h10 : 10 ≤ n := by omega
      have hlt : n / 10 < n := Nat.div_lt_self (by omega) (by omega)
      rw [natToDec_step h10, decValAux_append, ih (n / 10) hlt]
      have hm : n % 10 < 10 := Nat.mod_lt _ (by omega)
      simp [decValAux, digitChar_isDigit hm, charDigitVal_digitChar hm]
      omega

theorem natToDec_ne_nil (n : Nat) : natToDec n ≠ [] := by
  intro h
  have h0 := decValAux_natToDec n
  rw [h] at h0
  simp [decValAux] at h0
  subst h0
  simp [natToDec, natToDecAux] at h

theorem decValAux_head_isDigit {c : Char} {cs : List Char} {a v : Nat}
    (h : decValAux (c :: cs) a = some v) : c.isDigit = true := by
  by_contra hd
  simp [decValAux, hd] at h

theorem parseU64_natToDec {n : Nat} (hn : n < 2 ^ 64) :
    parseU64 (natToDec n) = some n := by
  obtain ⟨c, cs, hc⟩ : ∃ c cs, natToDec n = c :: cs := by
    cases h : natToDec n with
    | nil => exact absurd h (natToDec_ne_nil n)
    | cons c cs => exact ⟨c, cs, rfl⟩
  have hval : decValAux (c :: cs) 0 = some n := by
    rw [← hc]; exact decValAux_natToDec n
  have hdig : c.isDigit = true := decValAux_head_isDigit hval
  have hcne : c ≠ '+' := by
    intro h; subst h; exact absurd hdig (by decide)
  rw [hc]
  simp [parseU64, stripPlus, hcne, hval, hn]
  exact lt_of_lt_of_eq hn (by norm_num)

/-- C8: the textual rendering of a System, User or Transient GlobalId is the
single-letter prefix s, u or t followed by the decimal value of the numeric
suffix, and GlobalId::from_str applied to that rendering returns the original
identifier. -/
theorem C8_globalId_roundtrip (n : Nat) (hn : n < 2 ^ 64) :
    GlobalId.display (.System n) = 's' :: natToDec n ∧
    GlobalId.display (.User n) = 'u' :: natToDec n ∧
    GlobalId.display (.Transient n) = 't' :: natToDec n ∧
    GlobalId.from_str (GlobalId.display (.System n)) = some (.System n) ∧
    GlobalId.from_str (GlobalId.display (.User n)) = some (.User n) ∧
    GlobalId.from_str (GlobalId.display (.Transient n)) = some (.Transient n) := by
  obtain ⟨c, cs, hc⟩ : ∃ c cs, natToDec n = c :: cs := by
    cases h : natToDec n with
    | nil => exact absurd h (natToDec_ne_nil n)
    | cons c cs => exact ⟨c, cs, rfl⟩
  have hlen1 : 1 ≤ (natToDec n).length := by rw [hc]; simp
  have hparse : parseU64 (natToDec n) = some n := parseU64_natToDec hn
  refine ⟨rfl, rfl, rfl, ?_, ?_, ?_⟩ <;>
    simp [GlobalId.from_str, GlobalId.display, hparse, hlen1]

/-- Witness for C8: the roundtrip evaluated at the concrete suffix 7. -/
theorem C8_globalId_roundtrip_witness :
    GlobalId.from_str (GlobalId.display (.User 7)) = some (.User 7) :=
  (C8_globalId_roundtrip 7 (by norm_num)).2.2.2.2.1

/-- rusqlite error codes relevant to the catalog: the constraint-violation
code that is_constraint_violation looks for, and all others. -/
inductive SqliteErrorCode where
  | constraintViolation
  | otherCode (n : Nat)
deriving DecidableEq, Repr

/-- Errors reported by the embedded rusqlite store. -/
inductive RusqliteError where
  | sqliteFailure (code : SqliteErrorCode) (msg : Option String)
  | toSqlConversionFailure (msg : String)
  | otherError (msg : String)
deriving DecidableEq, Repr

/-- The catalog error kinds, as constructed in
src/coord/src/catalog/storage.rs (ErrorKind and the SqlCatalogError
variants used there); the Sqlite variant is the untranslated propagation
of a store error. -/
inductive ErrorKind where
  | Corruption (detail : String)
  | IdExhaustion
  | ExperimentalModeRequired
  | ExperimentalModeUnavailable
  | DatabaseAlreadyExists (name : String)
  | SchemaAlreadyExists (name : String)
  | RoleAlreadyExists (name : String)
  | ClusterAlreadyExists (name : String)
  | ItemAlreadyExists (name : String)
  | UnknownDatabase (name : String)
  | UnknownSchema (name : String)
  | UnknownRole (name : String)
  | UnknownComputeInstance (name : String)
  | UnknownItem (name : String)
  | Sqlite (e : RusqliteError)
deriving DecidableEq, Repr

/-- is_constraint_violation from src/coord/src/catalog/storage.rs. -/
def is_constraint_violation : RusqliteError → Bool
  | .sqliteFailure code _ => code == .constraintViolation
  | _ => false

/-- Outcome of an operation that may also hit a Rust assert! or panic!:
a panicked outcome terminates the process before any commit, so it
carries no state. -/
inductive Res (ε α : Type) where
  | ok (a : α)
  | err (e : ε)
  | panicked
deriving DecidableEq, Repr

/-- Connection::set_or_get_experimental_mode from
src/coord/src/catalog/storage.rs, as a function of the stored setting
(decoded from its nonzero-integer text encoding) and the experimental
hint passed to open.  The result pairs the returned value or error with
the stored setting after the call. -/
def set_or_get_experimental_mode (stored : Option Bool) (hint : Option Bool) :
    Except ErrorKind Bool × Option Bool :=
  match stored, hint with
  | none, some em => (.ok em, some em)
  | some cs, some em =>
    if cs && !em then (.error .ExperimentalModeRequired, some cs)
    else if !cs && em then (.error .ExperimentalModeUnavailable, some cs)
    else (.ok em, some cs)
  | some cs, none => (.ok cs, some cs)
  | none, none => (.ok false, none)

/-- Modelled from the spec: the seven-row resolution table of section 4.5
over (stored value, hint), amended in the (absent, false) row, where the
code stores the hint value false instead of storing nothing, and
completed in the (present, unset) rows, which the table leaves out and
where the code returns the stored value unchanged. -/
def experimental_mode_table (stored : Option Bool) (hint : Option Bool) :
    Except ErrorKind Bool × Option Bool :=
  match stored, hint with
  | none, some true => (.ok true, some true)
  | none, some false => (.ok false, some false)
  | some true, some true => (.ok true, some true)
  | some true, some false => (.error .ExperimentalModeRequired, some true)
  | some false, some true => (.error .ExperimentalModeUnavailable, some false)
  | some false, some false => (.ok false, some false)
  | some cs, none => (.ok cs, some cs)
  | none, none => (.ok false, none)

instance {ε α : Type} [DecidableEq ε] [DecidableEq α] : DecidableEq (Except ε α) := fun x y =>
  match x, y with
  | .ok a, .ok b =>
    if h : a = b then .isTrue (by rw [h])
    else .isFalse (fun hc => h (Except.ok.inj hc))
  | .error a, .error b =>
    if h : a = b then .isTrue (by rw [h])
    else .isFalse (fun hc => h (Except.error.inj hc))
  | .ok _, .error _ => .isFalse (fun hc => Except.noConfusion hc)
  | .error _, .ok _ => .isFalse (fun hc => Except.noConfusion hc)

/-- Counterexample to C1: when the setting is absent and the hint is
false (the flag given as Some false), open stores the value false in the
settings store, contradicting the claimed do-not-store row. -/
theorem C1_absent_false_stores :
    (set_or_get_experimental_mode none (some false)).2 = some false ∧
    (set_or_get_experimental_mode none (some false)).2 ≠ none := by
  constructor <;> decide

/-- C1 (amended): the resolution of experimental_mode coincides with the
corrected seven-row table at every (stored, hint) pair; in particular an
absent setting with hint false returns false and stores false, a stored
true with hint false fails with ExperimentalModeRequired, and once true
is stored no sequence of open calls changes the stored value. -/
theorem C1_experimental_mode_resolution :
    (∀ stored hint, set_or_get_experimental_mode stored hint =
      experimental_mode_table stored hint) ∧
    set_or_get_experimental_mode none (some false) = (.ok false, some false) ∧
    (set_or_get_experimental_mode (some true) (some false)).1 =
      .error .ExperimentalModeRequired ∧
    (∀ hints : List (Option Bool),
      hints.foldl (fun st h => (set_or_get_experimental_mode st h).2)
        (some true) = some true) := by
  refine ⟨by decide, by decide, by decide, ?_⟩
  intro hints
  induction hints with
  | nil => rfl
  | cons h t ih =>
    have hstep : (set_or_get_experimental_mode (some true) h).2 = some true := by
      cases h with
      | none => rfl
      | some b => cases b <;> rfl
    simpa [List.foldl, hstep] using ih

/-- i64::MAX, the allocator exhaustion sentinel. -/
def i64MAX : Int := 9223372036854775807

/-- Rust `c as u64` on a value read from a signed 64-bit column. -/
def i64AsU64 (c : Int) : Nat := (c % (2 ^ 64 : Int)).toNat

/-- Rust `x as i64`: two's-complement reinterpretation modulo 2^64. -/
def u64AsI64 (n : Nat) : Int :=
  if n % 2 ^ 64 < 2 ^ 63 then ((n % 2 ^ 64 : Nat) : Int)
  else ((n % 2 ^ 64 : Nat) : Int) - 2 ^ 64

/-- The two allocator namespaces: user_gid_alloc and system_gid_alloc. -/
inductive IdNamespace where
  | user
  | system
deriving DecidableEq, Repr

/-- The single-row counter tables of the two allocator namespaces. -/
structure AllocState where
  user_next_gid : Int
  system_next_gid : Int
deriving DecidableEq, Repr

/-- Connection::allocate_global_id from src/coord/src/catalog/storage.rs
on one counter: the stored i64 counter and the requested amount yield
IdExhaustion when the counter is exactly i64::MAX, and otherwise the
returned id block together with the new stored counter.  The u64 sum
id + amount wraps modulo 2^64 and its store-back wraps through the
`as i64` cast, matching release-mode Rust. -/
def allocate_global_id (c : Int) (amount : Nat) :
    Except ErrorKind (List Nat × Int) :=
  if c = i64MAX then .error .IdExhaustion
  else
    let id := i64AsU64 c
    let endU := (id + amount) % 2 ^ 64
    .ok ((List.range (endU - id)).map (id + ·), u64AsI64 (id + amount))

/-- Read the counter of one namespace. -/
def counterOf (st : AllocState) : IdNamespace → Int
  | .user => st.user_next_gid
  | .system => st.system_next_gid

/-- Write the counter of one namespace. -/
def setCounter (st : AllocState) : IdNamespace → Int → AllocState
  | .user, c => { st with user_next_gid := c }
  | .system, c => { st with system_next_gid := c }

/-- allocate over the two-counter state; on error the transaction is
rolled back before commit, so the state is returned unchanged. -/
def allocate (st : AllocState) (ns : IdNamespace) (amount : Nat) :
    Except ErrorKind (List Nat) × AllocState :=
  match allocate_global_id (counterOf st ns) amount with
  | .ok (ids, c) => (.ok ids, setCounter st ns c)
  | .error e => (.error e, st)

theorem counterOf_setCounter (st : AllocState) (ns : IdNamespace) (c : Int) :
    counterOf (setCounter st ns c) ns = c := by
  cases ns <;> rfl

theorem i64AsU64_of_nonneg {c : Int} (h0 : 0 ≤ c) (h : c < 2 ^ 64) :
    i64AsU64 c = c.toNat := by
  unfold i64AsU64
  rw [Int.emod_eq_of_lt h0 h]

/-- Counterexample to C3: allocating amount 2 from a counter at
i64::MAX - 1 stores the wrapped value -2^63, not next_gid + amount. -/
theorem C3_counterexample :
    (allocate ⟨i64MAX - 1, 0⟩ .user 2).2.user_next_gid = -(2 ^ 63) ∧
    (i64MAX - 1) + 2 ≠ -(2 ^ 63 : Int) := by
  constructor <;> decide

/-- C3 (amended): allocate reads the stored counter; at exactly i64::MAX
it fails with IdExhaustion, leaving the state unchanged; otherwise, with
u the counter reinterpreted as u64 and provided u + amount fits in 64
bits, it persists (u + amount) reinterpreted as a signed 64-bit integer
and returns the half-open range from u of length amount. -/
theorem C3_allocate (st : AllocState) (ns : IdNamespace) (amount : Nat)
    (hamt : 1 ≤ amount) :
    (counterOf st ns = i64MAX →
      allocate st ns amount = (.error .IdExhaustion, st)) ∧
    (counterOf st ns ≠ i64MAX →
      i64AsU64 (counterOf st ns) + amount < 2 ^ 64 →
      allocate st ns amount =
        (.ok ((List.range amount).map (i64AsU64 (counterOf st ns) + ·)),
          setCounter st ns
            (u64AsI64 (i64AsU64 (counterOf st ns) + amount))) ∧
      ((List.range amount).map (i64AsU64 (counterOf st ns) + ·)).length =
        amount) := by
  constructor
  · intro h
    simp [allocate, allocate_global_id, h]
  · intro h hsum
    have harg : (i64AsU64 (counterOf st ns) + amount) % 18446744073709551616 -
        i64AsU64 (counterOf st ns) = amount := by
      have hm := Nat.mod_eq_of_lt (lt_of_lt_of_eq hsum (show (2 : Nat) ^ 64 = 18446744073709551616 by norm_num))
      omega
    constructor
    · simp [allocate, allocate_global_id, if_neg h, harg]
    · simp

/-- Witness for C3: allocating 2 ids from a counter at 1. -/
theorem C3_allocate_witness :
    allocate ⟨1, 1⟩ .user 2 =
      (.ok ((List.range 2).map (i64AsU64 (counterOf ⟨1, 1⟩ .user) + ·)),
        setCounter ⟨1, 1⟩ .user
          (u64AsI64 (i64AsU64 (counterOf ⟨1, 1⟩ .user) + 2))) :=
  (((C3_allocate ⟨1, 1⟩ .user 2 (by decide)).2 (by decide) (by decide)).1)

/-- Counterexample to C10: with counter 2 and amount u64::MAX the call
succeeds but returns the empty list instead of a block of length amount,
and the stored counter becomes 1, which is not negative although
c + a exceeds i64::MAX. -/
theorem C10_counterexample :
    (allocate ⟨2, 0⟩ .user (2 ^ 64 - 1)).1 = .ok [] ∧
    (0 : Nat) ≠ 2 ^ 64 - 1 ∧
    (allocate ⟨2, 0⟩ .user (2 ^ 64 - 1)).2.user_next_gid = 1 ∧
    i64MAX < (2 : Int) + ((2 ^ 64 - 1 : Nat) : Int) ∧
    ¬ ((allocate ⟨2, 0⟩ .user (2 ^ 64 - 1)).2.user_next_gid < 0) := by
  refine ⟨by decide, by decide, by decide, by decide, by decide⟩

/-- C10 (amended): for a stored counter c with 0 ≤ c < i64::MAX and any
amount a ≥ 1 such that c + a still fits in 64 unsigned bits, allocate
succeeds, returns the block of a ids starting at c, and stores (c + a)
reinterpreted as a signed 64-bit integer, which is negative whenever
c + a exceeds i64::MAX. -/
theorem C10_allocate_wrap (st : AllocState) (ns : IdNamespace) (a : Nat)
    (h0 : 0 ≤ counterOf st ns) (hmax : counterOf st ns < i64MAX)
    (ha : 1 ≤ a) (hfit : (counterOf st ns).toNat + a < 2 ^ 64) :
    (allocate st ns a).1 =
      .ok ((List.range a).map ((counterOf st ns).toNat + ·)) ∧
    ((List.range a).map ((counterOf st ns).toNat + ·)).length = a ∧
    counterOf (allocate st ns a).2 ns =
      u64AsI64 ((counterOf st ns).toNat + a) ∧
    (i64MAX < counterOf st ns + (a : Int) →
      counterOf (allocate st ns a).2 ns < 0) := by
  have hc64 : counterOf st ns < (2 : Int) ^ 64 := by
    refine lt_trans hmax ?_
    norm_num [i64MAX]
  have hid : i64AsU64 (counterOf st ns) = (counterOf st ns).toNat :=
    i64AsU64_of_nonneg h0 hc64
  have hne : counterOf st ns ≠ i64MAX := ne_of_lt hmax
  have hmod : ((counterOf st ns).toNat + a) % 2 ^ 64 =
      (counterOf st ns).toNat + a := Nat.mod_eq_of_lt hfit
  have harg : ((counterOf st ns).toNat + a) % 18446744073709551616 -
      (counterOf st ns).toNat = a := by
    have hm := Nat.mod_eq_of_lt (lt_of_lt_of_eq hfit (show (2 : Nat) ^ 64 = 18446744073709551616 by norm_num))
    omega
  have hres : allocate st ns a =
      (.ok ((List.range a).map ((counterOf st ns).toNat + ·)),
        setCounter st ns (u64AsI64 ((counterOf st ns).toNat + a))) := by
    simp [allocate, allocate_global_id, if_neg hne, hid, harg]
  refine ⟨by rw [hres], by simp, by rw [hres]; exact counterOf_setCounter .., ?_⟩
  intro hgt
  rw [hres, counterOf_setCounter]
  have hcast : ((counterOf st ns).toNat : Int) = counterOf st ns :=
    Int.toNat_of_nonneg h0
  have hm : 2 ^ 63 ≤ (counterOf st ns).toNat + a := by
    have h1 : (9223372036854775807 : Int) <
        (((counterOf st ns).toNat + a : Nat) : Int) := by
      push_cast [hcast]
      simpa [i64MAX] using hgt
    have h2 : 9223372036854775807 < (counterOf st ns).toNat + a := by
      exact_mod_cast h1
    norm_num
    omega
  unfold u64AsI64
  rw [hmod, if_neg (Nat.not_lt.mpr hm), sub_neg]
  exact_mod_cast hfit

/-- Witness for C10: a counter one below i64::MAX wraps negative when two
more ids are allocated. -/
theorem C10_allocate_wrap_witness :
    counterOf (allocate ⟨9223372036854775806, 0⟩ .user 2).2 .user < 0 :=
  (C10_allocate_wrap ⟨9223372036854775806, 0⟩ .user 2 (by decide) (by decide)
    (by decide) (by decide)).2.2.2 (by decide)

/-- One migration step of the MIGRATIONS list: a transformation of the
store state that may fail.  Declarative statement batches and the
procedural migration both have this shape once embedded. -/
def Mig (sigma E : Type) : Type := sigma → Except E sigma

/-- The migration loop of Connection::open from
src/coord/src/catalog/storage.rs: run the listed (index, migration)
pairs in order; each success commits the new store state together with
the schema-version header set to the migration's index, while a failure
rolls the failing transaction back and stops.  Returns the last
committed (store, header) pair, the error if one occurred, and the list
of committed (store, header) snapshots in order. -/
def migrateLoop {sigma E : Type} :
    List (Nat × Mig sigma E) → sigma → Nat →
      (sigma × Nat) × Option E × List (sigma × Nat)
  | [], st, ver => ((st, ver), none, [])
  | (i, m) :: rest, st, ver =>
    match m st with
    | .ok st' =>
      let r := migrateLoop rest st' i
      (r.1, r.2.1, (st', i) :: r.2.2)
    | .error e => ((st, ver), some e, [])

/-- The migration phase of Connection::open: enumerate the migration
list, skip the first version + 1 entries, and run the rest. -/
def open_migrations {sigma E : Type} (migs : List (Mig sigma E))
    (version : Nat) (st : sigma) :
    (sigma × Nat) × Option E × List (sigma × Nat) :=
  migrateLoop ((migs.enum).drop (version + 1)) st version

theorem migrateLoop_spec {sigma E : Type} :
    ∀ (l : List (Nat × Mig sigma E)) (st : sigma) (ver : Nat),
      ((migrateLoop l st ver).2.1 = none →
        (migrateLoop l st ver).2.2.map Prod.snd = l.map Prod.fst) ∧
      ((migrateLoop l st ver).2.2.map Prod.snd =
        (l.map Prod.fst).take ((migrateLoop l st ver).2.2.length)) ∧
      (migrateLoop l st ver).1.2 =
        ((migrateLoop l st ver).2.2.map Prod.snd).getLastD ver := by
  intro l
  induction l with
  | nil => intro st ver; exact ⟨fun _ => rfl, rfl, rfl⟩
  | cons p rest ih =>
    intro st ver
    obtain ⟨i, m⟩ := p
    cases hm : m st with
    | ok st' =>
      have h := ih st' i
      refine ⟨?_, ?_, ?_⟩
      · intro hnone
        simp only [migrateLoop, hm] at hnone ⊢
        rw [List.map_cons, h.1 hnone, List.map_cons]
      · simp only [migrateLoop, hm, List.map_cons, List.length_cons,
          List.take_succ_cons]
        rw [← h.2.1]
      · simp only [migrateLoop, hm, List.map_cons, List.getLastD_cons]
        exact h.2.2
    | error e =>
      refine ⟨?_, ?_, ?_⟩ <;> simp [migrateLoop, hm]

theorem enumFrom_map_fst {α : Type} :
    ∀ (l : List α) (k : Nat),
      (l.enumFrom k).map Prod.fst = List.range' k l.length := by
  intro l
  induction l with
  | nil => intro k; rfl
  | cons a t ih => intro k; simp [List.enumFrom, List.range', ih]

theorem drop_enumFrom {α : Type} :
    ∀ (l : List α) (k j : Nat),
      (l.enumFrom k).drop j = (l.drop j).enumFrom (k + j) := by
  intro l
  induction l with
  | nil => intro k j; simp [List.enumFrom]
  | cons a t ih =>
    intro k j
    cases j with
    | zero => simp [List.enumFrom]
    | succ j =>
      simpa [List.enumFrom, Nat.add_assoc, Nat.add_comm 1 j]
        using ih (k + 1) j

/-- C5: open applies exactly the migrations whose index is strictly
greater than the stored schema version, in ascending index order (any
run commits an initial segment of that ascending index list); after each
successfully applied migration the committed header equals that
migration's index; and the final committed header is the index of the
last successful migration, or the original version when none ran, so a
failing migration aborts open with the store at the previous version. -/
theorem C5_migration_engine {sigma E : Type} (migs : List (Mig sigma E))
    (v : Nat) (st : sigma) :
    ((open_migrations migs v st).2.1 = none →
      (open_migrations migs v st).2.2.map Prod.snd =
        List.range' (v + 1) (migs.length - (v + 1))) ∧
    ((open_migrations migs v st).2.2.map Prod.snd =
      (List.range' (v + 1) (migs.length - (v + 1))).take
        ((open_migrations migs v st).2.2.length)) ∧
    (open_migrations migs v st).1.2 =
      ((open_migrations migs v st).2.2.map Prod.snd).getLastD v := by
  have hidx : ((migs.enum).drop (v + 1)).map Prod.fst =
      List.range' (v + 1) (migs.length - (v + 1)) := by
    show ((migs.enumFrom 0).drop (v + 1)).map Prod.fst = _
    rw [drop_enumFrom, enumFrom_map_fst]
    simp
  have h := migrateLoop_spec ((migs.enum).drop (v + 1)) st v
  exact ⟨fun hn => hidx ▸ h.1 hn, hidx ▸ h.2.1, h.2.2⟩

/-- Witness for C5 on a three-step migration list whose last step fails:
starting from version 0, indices 1 and 2 run, index 1 commits with
header 1, and the failure at index 2 leaves the header at 1. -/
theorem C5_migration_engine_witness :
    (open_migrations
      ([fun s => .ok s, fun s => .ok (s + 1), fun _ => .error 0] :
        List (Mig Nat Nat)) 0 5).1.2 = 1 ∧
    (open_migrations
      ([fun s => .ok s, fun s => .ok (s + 1), fun _ => .error 0] :
        List (Mig Nat Nat)) 0 5).2.1 = some 0 := by
  have h := C5_migration_engine
    ([fun s => .ok s, fun s => .ok (s + 1), fun _ => .error 0] :
      List (Mig Nat Nat)) 0 5
  refine ⟨?_, rfl⟩
  rw [h.2.2]
  rfl

/-- A row of the databases table (migration 0 DDL). -/
structure DatabaseRow where
  id : Int
  name : String
deriving DecidableEq, Repr

/-- A row of the schemas table (migration 0 DDL). -/
structure SchemaRow where
  id : Int
  database_id : Option Int
  name : String
deriving DecidableEq, Repr

/-- A row of the items table (migration 0 DDL); the definition column is
a raw byte blob. -/
structure ItemRow where
  gid : GlobalId
  schema_id : Int
  name : String
  definition : List Nat
deriving DecidableEq, Repr

/-- A row of the roles table (migration 3 DDL). -/
structure RoleRow where
  id : Int
  name : String
deriving DecidableEq, Repr

/-- A row of the compute_instances table (migrations 8 and 9 DDL); the
config column holds the JSON-serialized configuration text. -/
structure ComputeInstanceRow where
  id : Int
  name : String
  config : Option String
deriving DecidableEq, Repr

/-- A row of compute_introspection_source_indexes (migration 11 DDL). -/
structure IntrospectionIndexRow where
  compute_id : Int
  name : String
  index_id : Int
deriving DecidableEq, Repr

/-- A row of system_gid_mapping (migration 11 DDL). -/
structure MappingRow where
  schema_name : String
  object_name : String
  id : Int
  fingerprint : Int
deriving DecidableEq, Repr

/-- The tables of the catalog SQLite store that the repository
operations touch. -/
structure CatalogDb where
  databases : List DatabaseRow
  schemas : List SchemaRow
  items : List ItemRow
  roles : List RoleRow
  compute_instances : List ComputeInstanceRow
  introspection_source_indexes : List IntrospectionIndexRow
  system_gid_mapping : List MappingRow
deriving DecidableEq, Repr

/-- SQLite rowid assignment for an INTEGER PRIMARY KEY without
AUTOINCREMENT: one more than the largest existing id. -/
def nextRowId (ids : List Int) : Int := ids.foldr max 0 + 1

/-- The store's response to the databases INSERT: a unique-name
violation is a constraint-violation failure, otherwise the new rowid. -/
def databases_insert_store (st : CatalogDb) (database_name : String) :
    Except RusqliteError Int :=
  if st.databases.any (fun d => d.name == database_name) then
    .error (.sqliteFailure .constraintViolation none)
  else .ok (nextRowId (st.databases.map (·.id)))

/-- The error-translation match of Transaction::insert_database. -/
def insert_database_result (database_name : String)
    (res : Except RusqliteError Int) : Except ErrorKind Int :=
  match res with
  | .ok rowid => .ok rowid
  | .error err =>
    if is_constraint_violation err then
      .error (.DatabaseAlreadyExists database_name)
    else .error (.Sqlite err)

/-- Transaction::insert_database from src/coord/src/catalog/storage.rs. -/
def insert_database (st : CatalogDb) (database_name : String) :
    Except ErrorKind (Int × CatalogDb) :=
  match insert_database_result database_name
      (databases_insert_store st database_name) with
  | .ok rowid =>
    .ok (rowid,
      { st with databases := st.databases ++ [⟨rowid, database_name⟩] })
  | .error e => .error e

/-- The store's response to the schemas INSERT: the UNIQUE
(database_id, name) constraint, checked for the non-null database_id the
caller always supplies. -/
def schemas_insert_store (st : CatalogDb) (database_id : Int)
    (schema_name : String) : Except RusqliteError Int :=
  if st.schemas.any
      (fun s => s.database_id == some database_id && s.name == schema_name) then
    .error (.sqliteFailure .constraintViolation none)
  else .ok (nextRowId (st.schemas.map (·.id)))

/-- The error-translation match of Transaction::insert_schema. -/
def insert_schema_result (schema_name : String)
    (res : Except RusqliteError Int) : Except ErrorKind Int :=
  match res with
  | .ok rowid => .ok rowid
  | .error err =>
    if is_constraint_violation err then
      .error (.SchemaAlreadyExists schema_name)
    else .error (.Sqlite err)

/-- Transaction::insert_schema from src/coord/src/catalog/storage.rs. -/
def insert_schema (st : CatalogDb) (database_id : Int)
    (schema_name : String) : Except ErrorKind (Int × CatalogDb) :=
  match insert_schema_result schema_name
      (schemas_insert_store st database_id schema_name) with
  | .ok rowid =>
    .ok (rowid,
      { st with schemas :=
          st.schemas ++ [⟨rowid, some database_id, schema_name⟩] })
  | .error e => .error e

/-- The store's response to the roles INSERT (UNIQUE name). -/
def roles_insert_store (st : CatalogDb) (role_name : String) :
    Except RusqliteError Int :=
  if st.roles.any (fun r => r.name == role_name) then
    .error (.sqliteFailure .constraintViolation none)
  else .ok (nextRowId (st.roles.map (·.id)))

/-- The error-translation match of Transaction::insert_role. -/
def insert_role_result (role_name : String)
    (res : Except RusqliteError Int) : Except ErrorKind Int :=
  match res with
  | .ok rowid => .ok rowid
  | .error err =>
    if is_constraint_violation err then
      .error (.RoleAlreadyExists role_name)
    else .error (.Sqlite err)

/-- Transaction::insert_role from src/coord/src/catalog/storage.rs. -/
def insert_role (st : CatalogDb) (role_name : String) :
    Except ErrorKind (Int × CatalogDb) :=
  match insert_role_result role_name (roles_insert_store st role_name) with
  | .ok rowid =>
    .ok (rowid, { st with roles := st.roles ++ [⟨rowid, role_name⟩] })
  | .error e => .error e

/-- The store's response to the compute_instances INSERT (UNIQUE name). -/
def compute_instances_insert_store (st : CatalogDb) (cluster_name : String) :
    Except RusqliteError Int :=
  if st.compute_instances.any (fun c => c.name == cluster_name) then
    .error (.sqliteFailure .constraintViolation none)
  else .ok (nextRowId (st.compute_instances.map (·.id)))

/-- The error-translation match of the parent-row insert in
Transaction::insert_compute_instance. -/
def insert_compute_instance_result (cluster_name : String)
    (res : Except RusqliteError Int) : Except ErrorKind Int :=
  match res with
  | .ok rowid => .ok rowid
  | .error err =>
    if is_constraint_violation err then
      .error (.ClusterAlreadyExists cluster_name)
    else .error (.Sqlite err)

/-- The store's response to the items INSERT: the gid PRIMARY KEY and
the UNIQUE (schema_id, name) constraint.  The DDL also declares
schema_id REFERENCES schemas, but SQLite leaves foreign keys unenforced
because the code never issues PRAGMA foreign_keys = ON, so no
schema-existence check happens here. -/
def items_insert_store (st : CatalogDb) (id : GlobalId) (schema_id : Int)
    (item_name : String) : Except RusqliteError Int :=
  if st.items.any (fun it => it.gid == id) ||
      st.items.any (fun it => it.schema_id == schema_id && it.name == item_name) then
    .error (.sqliteFailure .constraintViolation none)
  else .ok 0

/-- The error-translation match of Transaction::insert_item. -/
def insert_item_result (item_name : String)
    (res : Except RusqliteError Int) : Except ErrorKind Unit :=
  match res with
  | .ok _ => .ok ()
  | .error err =>
    if is_constraint_violation err then
      .error (.ItemAlreadyExists item_name)
    else .error (.Sqlite err)

/-- Transaction::insert_item from src/coord/src/catalog/storage.rs. -/
def insert_item (st : CatalogDb) (id : GlobalId) (schema_id : Int)
    (item_name : String) (item : List Nat) : Except ErrorKind CatalogDb :=
  match insert_item_result item_name
      (items_insert_store st id schema_id item_name) with
  | .ok _ =>
    .ok { st with items := st.items ++ [⟨id, schema_id, item_name, item⟩] }
  | .error e => .error e

/-- One output row of Transaction::load_items: items.gid, databases.id,
schemas.id, items.name, items.definition, from which the caller builds
the qualified object name. -/
structure LoadedItem where
  gid : GlobalId
  database_id : Int
  schema_id : Int
  name : String
  definition : List Nat
deriving DecidableEq, Repr

/-- The sort key of the load_items query: json_extract of the serialized
gid at path $.User, which is the numeric suffix for User ids and SQL
NULL for every other variant. -/
def gidUserKey : GlobalId → Option Nat
  | .User n => some n
  | _ => none

/-- SQLite ascending ORDER BY comparison on the sort key: NULL sorts
before every value. -/
def keyLe : Option Nat → Option Nat → Bool
  | none, _ => true
  | some _, none => false
  | some a, some b => a ≤ b

/-- Insert one row into a list sorted by the load_items key. -/
def insertByKey (x : LoadedItem) : List LoadedItem → List LoadedItem
  | [] => [x]
  | y :: ys =>
    if keyLe (gidUserKey x.gid) (gidUserKey y.gid) then x :: y :: ys
    else y :: insertByKey x ys

/-- ORDER BY json_extract(items.gid, $.User) ascending. -/
def sortByGidKey (l : List LoadedItem) : List LoadedItem :=
  l.foldr insertByKey []

/-- The join of the load_items query: items INNER JOIN schemas on
items.schema_id = schemas.id INNER JOIN databases on
schemas.database_id = databases.id.  Items whose schema has a NULL
database_id produce no output row. -/
def joinItems (st : CatalogDb) : List LoadedItem :=
  st.items.flatMap fun it =>
    st.schemas.flatMap fun s =>
      if s.id == it.schema_id then
        st.databases.flatMap fun d =>
          if s.database_id == some d.id then
            [⟨it.gid, d.id, s.id, it.name, it.definition⟩]
          else []
      else []

/-- Transaction::load_items from src/coord/src/catalog/storage.rs. -/
def load_items (st : CatalogDb) : List LoadedItem :=
  sortByGidKey (joinItems st)

/-- The User-variant numeric suffixes of the returned rows, in order. -/
def userSuffixes (l : List LoadedItem) : List Nat :=
  l.filterMap (fun r => gidUserKey r.gid)

/-- Transaction::update_item from src/coord/src/catalog/storage.rs: the
UPDATE touches every row whose gid matches, then assert!(n <= 1) panics
on more than one, n = 1 succeeds, and n = 0 fails with UnknownItem. -/
def update_item (st : CatalogDb) (id : GlobalId) (item_name : String)
    (item : List Nat) : Res ErrorKind CatalogDb :=
  let n := st.items.countP (fun it => it.gid == id)
  if n > 1 then .panicked
  else if n = 1 then
    .ok { st with items := st.items.map (fun it =>
      if it.gid == id then
        { it with name := item_name, definition := item }
      else it) }
  else .err (.UnknownItem (globalIdStr id))

/-- Transaction::update_compute_instance_config from
src/coord/src/catalog/storage.rs: the UPDATE touches every row whose id
matches and the affected-row count is ignored (the Ok arm discards it),
so the call succeeds even when no row matched. -/
def update_compute_instance_config (st : CatalogDb) (id : Int)
    (config : String) : Res ErrorKind CatalogDb :=
  .ok { st with compute_instances := st.compute_instances.map (fun c =>
    if c.id == id then { c with config := some config } else c) }

/-- INSERT INTO system_gid_mapping ... ON CONFLICT (schema_name,
object_name) DO UPDATE: replace the row with the matching composite key,
or append a new row. -/
def upsertMapping (rows : List MappingRow) (r : MappingRow) :
    List MappingRow :=
  if rows.any (fun m =>
      m.schema_name == r.schema_name && m.object_name == r.object_name) then
    rows.map (fun m =>
      if m.schema_name == r.schema_name && m.object_name == r.object_name then
        { m with id := r.id, fingerprint := r.fingerprint }
      else m)
  else rows ++ [r]

/-- The loop of Connection::set_system_gids: each mapping is examined in
order; a non-System id panics before anything is committed, otherwise
the row is upserted. -/
def set_system_gids_loop (st : CatalogDb) :
    List (String × String × GlobalId × Nat) → Res ErrorKind CatalogDb
  | [] => .ok st
  | (schema_name, object_name, id, fingerprint) :: rest =>
    match id with
    | .System n =>
      let row : MappingRow :=
        ⟨schema_name, object_name, u64AsI64 n, u64AsI64 fingerprint⟩
      set_system_gids_loop
        { st with system_gid_mapping :=
            upsertMapping st.system_gid_mapping row }
        rest
    | _ => .panicked

/-- Connection::set_system_gids from src/coord/src/catalog/storage.rs:
an empty mapping list returns immediately without opening a
transaction. -/
def set_system_gids (st : CatalogDb)
    (mappings : List (String × String × GlobalId × Nat)) :
    Res ErrorKind CatalogDb :=
  if mappings.isEmpty then .ok st
  else set_system_gids_loop st mappings

/-- The loop of Connection::set_introspection_source_index_gids: each
mapping is examined in order; a non-System id panics, and the plain
INSERT fails on a duplicate (compute_id, name) primary key, propagating
the store error. -/
def set_introspection_gids_loop (st : CatalogDb) :
    List (Int × String × GlobalId) → Res ErrorKind CatalogDb
  | [] => .ok st
  | (compute_id, name, index_id) :: rest =>
    match index_id with
    | .System n =>
      if st.introspection_source_indexes.any
          (fun r => r.compute_id == compute_id && r.name == name) then
        .err (.Sqlite (.sqliteFailure .constraintViolation none))
      else
        set_introspection_gids_loop
          { st with introspection_source_indexes :=
              st.introspection_source_indexes ++
                [⟨compute_id, name, u64AsI64 n⟩] }
          rest
    | _ => .panicked

/-- Connection::set_introspection_source_index_gids from
src/coord/src/catalog/storage.rs. -/
def set_introspection_source_index_gids (st : CatalogDb)
    (mappings : List (Int × String × GlobalId)) : Res ErrorKind CatalogDb :=
  if mappings.isEmpty then .ok st
  else set_introspection_gids_loop st mappings

/-- The introspection-source loop of Transaction::insert_compute_instance:
the non-System check precedes each INSERT, and an INSERT error (such as a
duplicate (compute_id, name) key) propagates untranslated. -/
def insert_introspection_rows (st : CatalogDb) (compute_id : Int) :
    List (String × GlobalId) → Res ErrorKind CatalogDb
  | [] => .ok st
  | (name, index_id) :: rest =>
    match index_id with
    | .System n =>
      if st.introspection_source_indexes.any
          (fun r => r.compute_id == compute_id && r.name == name) then
        .err (.Sqlite (.sqliteFailure .constraintViolation none))
      else
        insert_introspection_rows
          { st with introspection_source_indexes :=
              st.introspection_source_indexes ++
                [⟨compute_id, name, u64AsI64 n⟩] }
          compute_id rest
    | _ => .panicked

/-- Transaction::insert_compute_instance from
src/coord/src/catalog/storage.rs: the parent row is inserted first (its
unique-name violation is translated to ClusterAlreadyExists and returned
before any introspection id is examined), then the introspection rows
are inserted in the same transaction.  The config argument is the
JSON-serialized configuration text. -/
def insert_compute_instance (st : CatalogDb) (cluster_name : String)
    (config : String) (introspection_sources : List (String × GlobalId)) :
    Res ErrorKind (Int × CatalogDb) :=
  match insert_compute_instance_result cluster_name
      (compute_instances_insert_store st cluster_name) with
  | .error e => .err e
  | .ok id =>
    let st1 := { st with compute_instances :=
      st.compute_instances ++ [⟨id, cluster_name, some config⟩] }
    match insert_introspection_rows st1 id introspection_sources with
    | .ok st2 => .ok (id, st2)
    | .err e => .err e
    | .panicked => .panicked

/-- The ordering the load_items query establishes between two rows. -/
def itemKeyRel (a b : LoadedItem) : Prop :=
  keyLe (gidUserKey a.gid) (gidUserKey b.gid) = true

theorem keyLe_total (a b : Option Nat) :
    keyLe a b = true ∨ keyLe b a = true := by
  cases a <;> cases b <;> simp [keyLe] <;> omega

theorem keyLe_trans {a b c : Option Nat} (h1 : keyLe a b = true)
    (h2 : keyLe b c = true) : keyLe a c = true := by
  cases a <;> cases b <;> cases c <;> simp [keyLe] at * <;> omega

theorem mem_insertByKey {a x : LoadedItem} :
    ∀ {l : List LoadedItem}, a ∈ insertByKey x l ↔ a = x ∨ a ∈ l := by
  intro l
  induction l with
  | nil => simp [insertByKey]
  | cons y ys ih =>
    by_cases h : keyLe (gidUserKey x.gid) (gidUserKey y.gid) = true
    · simp [insertByKey, h]
    · simp only [insertByKey, if_neg h, List.mem_cons, ih]
      tauto

theorem pairwise_insertByKey {x : LoadedItem} :
    ∀ {l : List LoadedItem}, l.Pairwise itemKeyRel →
      (insertByKey x l).Pairwise itemKeyRel := by
  intro l
  induction l with
  | nil => intro _; simp [insertByKey, List.pairwise_cons]
  | cons y ys ih =>
    intro hp
    rw [List.pairwise_cons] at hp
    by_cases h : keyLe (gidUserKey x.gid) (gidUserKey y.gid) = true
    · rw [insertByKey, if_pos h, List.pairwise_cons]
      refine ⟨?_, List.pairwise_cons.mpr hp⟩
      intro b hb
      rcases List.mem_cons.mp hb with hby | hbys
      · subst hby; exact h
      · exact keyLe_trans h (hp.1 b hbys)
    · rw [insertByKey, if_neg h, List.pairwise_cons]
      refine ⟨?_, ih hp.2⟩
      intro b hb
      rcases mem_insertByKey.mp hb with hbx | hbys
      · subst hbx
        rcases keyLe_total (gidUserKey b.gid) (gidUserKey y.gid) with h1 | h1
        · exact absurd h1 h
        · exact h1
      · exact hp.1 b hbys

theorem mem_sortByGidKey {a : LoadedItem} :
    ∀ {l : List LoadedItem}, a ∈ sortByGidKey l ↔ a ∈ l := by
  intro l
  induction l with
  | nil => simp [sortByGidKey]
  | cons x xs ih =>
    show a ∈ insertByKey x (sortByGidKey xs) ↔ _
    rw [mem_insertByKey, ih, List.mem_cons]

theorem pairwise_sortByGidKey (l : List LoadedItem) :
    (sortByGidKey l).Pairwise itemKeyRel := by
  induction l with
  | nil => simp [sortByGidKey]
  | cons x xs ih => exact pairwise_insertByKey ih

theorem pairwise_userSuffixes :
    ∀ {l : List LoadedItem}, l.Pairwise itemKeyRel →
      (userSuffixes l).Pairwise (· ≤ ·) := by
  intro l
  induction l with
  | nil => intro _; simp [userSuffixes]
  | cons r t ih =>
    intro hp
    rw [List.pairwise_cons] at hp
    rw [userSuffixes, List.filterMap_cons]
    cases hk : gidUserKey r.gid with
    | none => exact ih hp.2
    | some n =>
      rw [List.pairwise_cons]
      refine ⟨?_, ih hp.2⟩
      intro m hm
      obtain ⟨b, hb, hbk⟩ := List.mem_filterMap.mp hm
      have hrel := hp.1 b hb
      rw [itemKeyRel, hk, hbk] at hrel
      simpa [keyLe] using hrel

/-- The catalog state used by the C2 and C6 theorems: the seeded
materialize database, the database-less mz_catalog schema and the public
schema of database 1, with no items. -/
def C2db : CatalogDb :=
  { databases := [⟨1, "materialize"⟩]
    schemas := [⟨1, none, "mz_catalog"⟩, ⟨3, some 1, "public"⟩]
    items := []
    roles := []
    compute_instances := []
    introspection_source_indexes := []
    system_gid_mapping := [] }

/-- Counterexample to C2: inserting an item into the existing schema
mz_catalog (id 1, which has no database reference) succeeds, yet a
subsequent load_items returns nothing, because the query's inner join on
databases drops every schema whose database_id is NULL. -/
theorem C2_counterexample :
    insert_item C2db (.User 1) 1 "v" [1] =
      .ok { C2db with items := [⟨.User 1, 1, "v", [1]⟩] } ∧
    load_items { C2db with items := [⟨.User 1, 1, "v", [1]⟩] } = [] := by
  constructor <;> rfl

/-- C2 (amended): an item successfully inserted into an existing schema
that references an existing database is returned by a subsequent
load_items, and the User-tagged rows of any load_items result appear in
ascending order of their numeric suffix. -/
theorem C2_insert_load_items (st st' : CatalogDb) (gid : GlobalId)
    (sid : Int) (item_name : String) (defn : List Nat) (s : SchemaRow)
    (d : DatabaseRow)
    (hins : insert_item st gid sid item_name defn = .ok st')
    (hs : s ∈ st.schemas) (hsid : s.id = sid)
    (hdb : s.database_id = some d.id) (hd : d ∈ st.databases) :
    (⟨gid, d.id, sid, item_name, defn⟩ : LoadedItem) ∈ load_items st' ∧
    (userSuffixes (load_items st')).Pairwise (· ≤ ·) := by
  have hst' : st' =
      { st with items := st.items ++ [⟨gid, sid, item_name, defn⟩] } := by
    by_cases hconf : (st.items.any (fun it => it.gid == gid) ||
        st.items.any (fun it =>
          it.schema_id == sid && it.name == item_name)) = true
    · rw [insert_item, items_insert_store, if_pos hconf] at hins
      simp [insert_item_result, is_constraint_violation] at hins
    · rw [insert_item, items_insert_store, if_neg hconf] at hins
      simp only [insert_item_result, Except.ok.injEq] at hins
      exact hins.symm
  refine ⟨?_, pairwise_userSuffixes (pairwise_sortByGidKey _)⟩
  rw [load_items]
  rw [show (⟨gid, d.id, sid, item_name, defn⟩ : LoadedItem) ∈
        sortByGidKey (joinItems st') ↔
      (⟨gid, d.id, sid, item_name, defn⟩ : LoadedItem) ∈ joinItems st'
    from mem_sortByGidKey]
  rw [joinItems]
  apply List.mem_flatMap.mpr
  refine ⟨⟨gid, sid, item_name, defn⟩, ?_, ?_⟩
  · rw [hst']
    exact List.mem_append.mpr (Or.inr (List.mem_singleton.mpr rfl))
  · apply List.mem_flatMap.mpr
    refine ⟨s, by rw [hst']; exact hs, ?_⟩
    rw [if_pos (by simpa using hsid)]
    apply List.mem_flatMap.mpr
    refine ⟨d, by rw [hst']; exact hd, ?_⟩
    rw [if_pos (by simp [hdb])]
    simp [hsid]

/-- Witness for C2: a user item inserted into the public schema of the
materialize database is returned by load_items. -/
theorem C2_insert_load_items_witness :
    (⟨.User 5, 1, 3, "w", [7]⟩ : LoadedItem) ∈
      load_items { C2db with items := [⟨.User 5, 3, "w", [7]⟩] } :=
  (C2_insert_load_items C2db
    { C2db with items := [⟨.User 5, 3, "w", [7]⟩] } (.User 5) 3 "w" [7]
    ⟨3, some 1, "public"⟩ ⟨1, "materialize"⟩ rfl (by decide) rfl rfl
    (by decide)).1

theorem countP_le_one_of_nodup_keys {α κ : Type} [DecidableEq κ]
    (f : α → κ) (k : κ) :
    ∀ {l : List α}, (l.map f).Nodup →
      l.countP (fun x => f x == k) ≤ 1 := by
  intro l
  induction l with
  | nil => intro _; simp
  | cons x t ih =>
    intro hnd
    rw [List.map_cons, List.nodup_cons] at hnd
    by_cases hx : (f x == k) = true
    · have hk : f x = k := by simpa using hx
      have ht : t.countP (fun y => f y == k) = 0 := by
        rw [List.countP_eq_zero]
        intro a ha hak
        have hfa : f a = k := by simpa using hak
        exact hnd.1 (by rw [hk, ← hfa]; exact List.mem_map_of_mem f ha)
      simp [List.countP_cons, hx, ht]
    · simpa [List.countP_cons, hx] using ih hnd.2

/-- The empty catalog state. -/
def emptyDb : CatalogDb := ⟨[], [], [], [], [], [], []⟩

/-- Counterexample to C4: updating the config of compute instance 7,
which does not exist (the UPDATE affects zero rows), succeeds instead of
failing with an Unknown error, because
update_compute_instance_config ignores the affected-row count. -/
theorem C4_counterexample :
    emptyDb.compute_instances.countP (fun c => c.id == 7) = 0 ∧
    update_compute_instance_config emptyDb 7 "cfg" = .ok emptyDb := by
  constructor <;> rfl

/-- C4 (amended): with unique keys both update operations affect at most
one row; update_item fails with UnknownItem when zero rows are affected,
while update_compute_instance_config succeeds unconditionally, even when
its target does not exist. -/
theorem C4_update_row_counts (st : CatalogDb) (id : GlobalId)
    (item_name : String) (defn : List Nat) (cid : Int) (config : String)
    (hitems : (st.items.map (·.gid)).Nodup)
    (hinst : (st.compute_instances.map (·.id)).Nodup) :
    st.items.countP (fun it => it.gid == id) ≤ 1 ∧
    (st.items.countP (fun it => it.gid == id) = 0 →
      update_item st id item_name defn =
        .err (.UnknownItem (globalIdStr id))) ∧
    (st.items.countP (fun it => it.gid == id) = 1 →
      update_item st id item_name defn =
        .ok { st with items := st.items.map (fun it =>
          if it.gid == id then
            { it with name := item_name, definition := defn }
          else it) }) ∧
    st.compute_instances.countP (fun c => c.id == cid) ≤ 1 ∧
    update_compute_instance_config st cid config =
      .ok { st with compute_instances := st.compute_instances.map (fun c =>
        if c.id == cid then { c with config := some config } else c) } := by
  refine ⟨countP_le_one_of_nodup_keys _ _ hitems, ?_, ?_,
    countP_le_one_of_nodup_keys _ _ hinst, rfl⟩
  · intro h0
    simp [update_item, h0]
  · intro h1
    simp [update_item, h1]

/-- Witness for C4: updating a nonexistent item in the empty catalog
fails with UnknownItem. -/
theorem C4_update_row_counts_witness :
    update_item emptyDb (.User 3) "n" [] =
      .err (.UnknownItem (globalIdStr (.User 3))) :=
  (C4_update_row_counts emptyDb (.User 3) "n" [] 5 "c"
    (by simp [emptyDb]) (by simp [emptyDb])).2.1 rfl

/-- C6 at the failing input: the items DDL declares schema_id REFERENCES
schemas, but the code never turns SQLite foreign-key enforcement on, so
insert_item with schema_id 999, which names no schema, succeeds and
leaves an item row whose schema reference dangles. -/
theorem C6_fk_unenforced :
    insert_item C2db (.User 2) 999 "orphan" [] =
      .ok { C2db with items := [⟨.User 2, 999, "orphan", []⟩] } ∧
    C2db.schemas.any (fun s => s.id == 999) = false := by
  constructor <;> rfl

/-- C7: each insert operation maps a store constraint violation to its
AlreadyExists variant carrying the offending name and propagates every
other store error unchanged; an error counts as a constraint violation
exactly when its code is the constraint-violation code; and a duplicate
name makes the stateful inserts fail with their AlreadyExists variant. -/
theorem C7_insert_error_translation (name : String) (err : RusqliteError)
    (st : CatalogDb) :
    (is_constraint_violation err = true ↔
      ∃ msg, err = .sqliteFailure .constraintViolation msg) ∧
    (is_constraint_violation err = true →
      insert_database_result name (.error err) =
        .error (.DatabaseAlreadyExists name) ∧
      insert_schema_result name (.error err) =
        .error (.SchemaAlreadyExists name) ∧
      insert_role_result name (.error err) =
        .error (.RoleAlreadyExists name) ∧
      insert_compute_instance_result name (.error err) =
        .error (.ClusterAlreadyExists name) ∧
      insert_item_result name (.error err) =
        .error (.ItemAlreadyExists name)) ∧
    (is_constraint_violation err = false →
      insert_database_result name (.error err) = .error (.Sqlite err) ∧
      insert_schema_result name (.error err) = .error (.Sqlite err) ∧
      insert_role_result name (.error err) = .error (.Sqlite err) ∧
      insert_compute_instance_result name (.error err) =
        .error (.Sqlite err) ∧
      insert_item_result name (.error err) = .error (.Sqlite err)) ∧
    (st.databases.any (fun d => d.name == name) = true →
      insert_database st name = .error (.DatabaseAlreadyExists name)) ∧
    (st.roles.any (fun r => r.name == name) = true →
      insert_role st name = .error (.RoleAlreadyExists name)) := by
  refine ⟨?_, ?_, ?_, ?_, ?_⟩
  · cases err with
    | sqliteFailure code msg =>
      cases code <;> simp [is_constraint_violation]
    | toSqlConversionFailure msg => simp [is_constraint_violation]
    | otherError msg => simp [is_constraint_violation]
  · intro h
    refine ⟨?_, ?_, ?_, ?_, ?_⟩ <;>
      simp [insert_database_result, insert_schema_result,
        insert_role_result, insert_compute_instance_result,
        insert_item_result, h]
  · intro h
    refine ⟨?_, ?_, ?_, ?_, ?_⟩ <;>
      simp [insert_database_result, insert_schema_result,
        insert_role_result, insert_compute_instance_result,
        insert_item_result, h]
  · intro h
    simp [insert_database, databases_insert_store, h,
      insert_database_result, is_constraint_violation]
  · intro h
    simp [insert_role, roles_insert_store, h, insert_role_result,
      is_constraint_violation]

/-- Witness for C7: a constraint violation on duplicate database name x
is translated to DatabaseAlreadyExists. -/
theorem C7_insert_error_translation_witness :
    insert_database_result "x"
      (.error (.sqliteFailure .constraintViolation none)) =
      .error (.DatabaseAlreadyExists "x") :=
  ((C7_insert_error_translation "x"
    (.sqliteFailure .constraintViolation none) emptyDb).2.1 rfl).1

theorem set_system_gids_loop_panics :
    ∀ (gm : List (String × String × GlobalId × Nat)) (st : CatalogDb),
      gm.any (fun m => !(GlobalId.is_system m.2.2.1)) = true →
      set_system_gids_loop st gm = .panicked := by
  intro gm
  induction gm with
  | nil => intro st h; simp at h
  | cons m rest ih =>
    intro st h
    obtain ⟨schema_name, object_name, id, fingerprint⟩ := m
    cases id with
    | System n =>
      have hrest : rest.any (fun m => !(GlobalId.is_system m.2.2.1)) = true := by
        simpa [GlobalId.is_system] using h
      exact ih _ hrest
    | User n => rfl
    | Transient n => rfl
    | Explain => rfl

theorem set_introspection_gids_loop_panics :
    ∀ (im : List (Int × String × GlobalId)) (st : CatalogDb),
      im.any (fun m => !(GlobalId.is_system m.2.2)) = true →
      (∀ m ∈ im, st.introspection_source_indexes.any
        (fun r => r.compute_id == m.1 && r.name == m.2.1) = false) →
      (im.map (fun m => (m.1, m.2.1))).Nodup →
      set_introspection_gids_loop st im = .panicked := by
  intro im
  induction im with
  | nil => intro st h _ _; simp at h
  | cons m rest ih =>
    intro st h hfresh hnd
    obtain ⟨compute_id, name, index_id⟩ := m
    rw [List.map_cons, List.nodup_cons] at hnd
    cases index_id with
    | System n =>
      have hrest : rest.any (fun m => !(GlobalId.is_system m.2.2)) = true := by
        simpa [GlobalId.is_system] using h
      have hhead := hfresh (compute_id, name, .System n) (List.mem_cons_self ..)
      rw [set_introspection_gids_loop, if_neg (by simp [hhead])]
      refine ih _ hrest ?_ hnd.2
      intro m hm
      have hst := hfresh m (List.mem_cons_of_mem _ hm)
      have hkey : ¬ ((compute_id == m.1 && name == m.2.1) = true) := by
        intro hk
        apply hnd.1
        have h1 : compute_id = m.1 := by
          have := (Bool.and_eq_true ..).mp hk
          simpa using this.1
        have h2 : name = m.2.1 := by
          have := (Bool.and_eq_true ..).mp hk
          simpa using this.2
        show (compute_id, name) ∈ List.map (fun m => (m.1, m.2.1)) rest
        rw [h1, h2]
        exact List.mem_map_of_mem (fun m => (m.1, m.2.1)) hm
      simp only [List.any_append, List.any_cons, List.any_nil, hst]
      simp [hkey]
    | User n => rfl
    | Transient n => rfl
    | Explain => rfl

theorem insert_introspection_rows_panics :
    ∀ (cs : List (String × GlobalId)) (st : CatalogDb) (cid : Int),
      cs.any (fun m => !(GlobalId.is_system m.2)) = true →
      (∀ m ∈ cs, st.introspection_source_indexes.any
        (fun r => r.compute_id == cid && r.name == m.1) = false) →
      (cs.map (·.1)).Nodup →
      insert_introspection_rows st cid cs = .panicked := by
  intro cs
  induction cs with
  | nil => intro st cid h _ _; simp at h
  | cons m rest ih =>
    intro st cid h hfresh hnd
    obtain ⟨name, index_id⟩ := m
    rw [List.map_cons, List.nodup_cons] at hnd
    cases index_id with
    | System n =>
      have hrest : rest.any (fun m => !(GlobalId.is_system m.2)) = true := by
        simpa [GlobalId.is_system] using h
      have hhead := hfresh (name, .System n) (List.mem_cons_self ..)
      rw [insert_introspection_rows, if_neg (by simp [hhead])]
      refine ih _ cid hrest ?_ hnd.2
      intro m hm
      have hst := hfresh m (List.mem_cons_of_mem _ hm)
      have hname : ¬ (name = m.1) := by
        intro hk
        exact hnd.1 (hk ▸ List.mem_map_of_mem (·.1) hm)
      simp only [List.any_append, List.any_cons, List.any_nil, hst]
      simp [hname]
    | User n => rfl
    | Transient n => rfl
    | Explain => rfl

/-- The catalog state with only the seeded default compute instance. -/
def defaultInstanceDb : CatalogDb :=
  { emptyDb with compute_instances := [⟨1, "default", none⟩] }

/-- Counterexample to C9: insert_compute_instance called with a
duplicate cluster name and a non-System introspection id returns the
ClusterAlreadyExists error instead of terminating the process: the
parent-row insert fails before any introspection id is examined. -/
theorem C9_counterexample :
    GlobalId.is_system (.User 1) = false ∧
    insert_compute_instance defaultInstanceDb "default" "cfg"
      [("log", .User 1)] = .err (.ClusterAlreadyExists "default") := by
  constructor <;> rfl

/-- C9 (amended): a non-System identifier supplied to a system-only API
makes the process panic, with nothing stored, provided execution reaches
the check: unconditionally in set_system_gids; in
set_introspection_source_index_gids when no earlier insert of the call
hits a duplicate (compute_id, name) key; and in insert_compute_instance
when the parent-row insert succeeds and no introspection insert hits a
duplicate key first.  A store error raised before the check is returned
as an error instead. -/
theorem C9_nonsystem_panics (st : CatalogDb)
    (gm : List (String × String × GlobalId × Nat))
    (im : List (Int × String × GlobalId))
    (cs : List (String × GlobalId)) (cluster_name config : String)
    (hgm : gm.any (fun m => !(GlobalId.is_system m.2.2.1)) = true)
    (him : im.any (fun m => !(GlobalId.is_system m.2.2)) = true)
    (himfresh : ∀ m ∈ im, st.introspection_source_indexes.any
      (fun r => r.compute_id == m.1 && r.name == m.2.1) = false)
    (himnd : (im.map (fun m => (m.1, m.2.1))).Nodup)
    (hcs : cs.any (fun m => !(GlobalId.is_system m.2)) = true)
    (hcsnd : (cs.map (·.1)).Nodup)
    (hcname : st.compute_instances.any
      (fun c => c.name == cluster_name) = false)
    (hcsfresh : ∀ m ∈ cs, st.introspection_source_indexes.any
      (fun r =>
        r.compute_id == nextRowId (st.compute_instances.map (·.id)) &&
          r.name == m.1) = false) :
    set_system_gids st gm = .panicked ∧
    set_introspection_source_index_gids st im = .panicked ∧
    insert_compute_instance st cluster_name config cs = .panicked := by
  refine ⟨?_, ?_, ?_⟩
  · have hne : ¬ (gm.isEmpty = true) := by
      intro he
      rw [List.isEmpty_iff] at he
      subst he
      simp at hgm
    rw [set_system_gids, if_neg hne]
    exact set_system_gids_loop_panics gm st hgm
  · have hne : ¬ (im.isEmpty = true) := by
      intro he
      rw [List.isEmpty_iff] at he
      subst he
      simp at him
    rw [set_introspection_source_index_gids, if_neg hne]
    exact set_introspection_gids_loop_panics im st him himfresh himnd
  · have hid : compute_instances_insert_store st cluster_name =
        .ok (nextRowId (st.compute_instances.map (·.id))) := by
      rw [compute_instances_insert_store, if_neg (by simp [hcname])]
    have hpan : insert_introspection_rows
        { st with compute_instances := st.compute_instances ++
            [⟨nextRowId (st.compute_instances.map (·.id)), cluster_name,
              some config⟩] }
        (nextRowId (st.compute_instances.map (·.id))) cs = .panicked := by
      refine insert_introspection_rows_panics cs _ _ hcs ?_ hcsnd
      intro m hm
      exact hcsfresh m hm
    rw [insert_compute_instance, hid]
    simp only [insert_compute_instance_result]
    rw [hpan]

/-- Witness for C9 at concrete inputs: each system-only API panics on a
non-System id when nothing pre-empts the check. -/
theorem C9_nonsystem_panics_witness :
    set_system_gids emptyDb [("s", "o", .User 1, 0)] = .panicked ∧
    set_introspection_source_index_gids emptyDb
      [(1, "a", .Transient 2)] = .panicked ∧
    insert_compute_instance emptyDb "c" "cfg" [("log", .Explain)] =
      .panicked :=
  C9_nonsystem_panics emptyDb [("s", "o", .User 1, 0)]
    [(1, "a", .Transient 2)] [("log", .Explain)] "c" "cfg"
    (by decide) (by decide) (by decide) (by decide) (by decide)
    (by decide) (by decide) (by decide)

end MzCatalog
